import Mathlib

/-!
# Verification of the commute-catchment core

Shallow embedding, in Lean 4, of the two core modules of the
`commute-catchment` repository:

* `src/app/api/isochrone/route.ts` — the isochrone proxy route: request
  fingerprint (cache key), duration clamp, TTL cache, and the `POST`
  handler's control flow.
* `src/app/page.tsx` — the containment engine: the centroid-in-polygon
  matching computation with its bounding-box prefilter, name resolution,
  de-duplication and sorting.

JavaScript numbers are modelled as rationals (`ℚ`), timestamps as integers
(milliseconds), and JS `Map` objects as insertion-ordered association lists
with the exact `Map.set` semantics (an existing key keeps its position and
gets the new value; a new key is appended).  Geometry-library calls
(`turf.combine`, `turf.bbox`, `turf.centroid`,
`turf.booleanPointInPolygon`) are external to the repository and are
modelled as opaque operation records; calls the source wraps in
`try`/`catch` are given `Option` result types, `none` standing for a
thrown exception.
-/

/-! ## JS `Map` as an insertion-ordered association list -/

/-- JS `Map.set` semantics on an insertion-ordered association list:
an existing key keeps its position and receives the new value, a fresh key
is appended at the end. -/
def jsMapSet {α : Type} (m : List (String × α)) (k : String) (v : α) :
    List (String × α) :=
  match m with
  | [] => [(k, v)]
  | p :: rest => if p.1 == k then (k, v) :: rest else p :: jsMapSet rest k v

/-- JS `Map.get`: value of the first (unique) binding of `k`. -/
def jsMapGet {α : Type} (m : List (String × α)) (k : String) : Option α :=
  (m.find? (fun p => p.1 == k)).map Prod.snd

/-- JS `new Map(pairs)`: successive `Map.set` of each pair, left to right. -/
def jsMapOf {α : Type} (ps : List (String × α)) : List (String × α) :=
  ps.foldl (fun m q => jsMapSet m q.1 q.2) []

/-- Keys of an association list, in order. -/
def jsMapKeys {α : Type} (m : List (String × α)) : List String :=
  m.map Prod.fst

/-! ## `src/app/api/isochrone/route.ts` -/

/-- Request body of the isochrone route (`IsochroneRequest` in
`route.ts`).  Coordinates are JS numbers, modelled as rationals; the
duration budget in minutes is an integer (spec §6) and the travel mode is
one of the two transport-mode strings. -/
structure IsochroneRequest where
  lat : ℚ
  lng : ℚ
  arriveByISO : String
  minutes : ℤ
  mode : String
deriving DecidableEq, Repr

/-- Left-pad a digit string with zeros to length 5
(fractional part of `toFixed(5)`). -/
def pad5 (s : String) : String :=
  String.mk (List.replicate (5 - s.length) '0') ++ s

/-- JS `Number.prototype.toFixed(5)` (ECMA-262): the sign is taken from
the number, the magnitude is rounded to the integer `n` with `n / 10^5`
closest to it, ties picking the larger `n`, and printed with exactly five
decimals. -/
def toFixed5 (q : ℚ) : String :=
  let s := if q < 0 then "-" else ""
  let n : ℤ := ⌊|q| * 100000 + 1 / 2⌋
  s ++ toString (n.toNat / 100000) ++ "." ++ pad5 (toString (n.toNat % 100000))

/-- `cacheKey` from `route.ts`:
`lat.toFixed(5),lng.toFixed(5)|arriveByISO|minutes|mode`. -/
def cacheKey (body : IsochroneRequest) : String :=
  toFixed5 body.lat ++ "," ++ toFixed5 body.lng ++ "|" ++ body.arriveByISO ++
    "|" ++ toString body.minutes ++ "|" ++ body.mode

/-- JS `Math.round`: round half toward positive infinity. -/
def jsRound (q : ℚ) : ℤ := ⌊q + 1 / 2⌋

/-- `route.ts` line 49:
`Math.max(60, Math.min(Math.round(body.minutes * 60), 10800))`. -/
def travelTimeSeconds (minutes : ℤ) : ℤ :=
  max 60 (min (jsRound ((minutes : ℚ) * 60)) 10800)

/-- The outbound request body built for the TravelTime `time-map/fast`
endpoint (`payload` in `route.ts`): destination coordinates, transport
mode, the fixed arrival-time period, and the clamped travel time. -/
structure OutboundPayload where
  searchId : String
  lat : ℚ
  lng : ℚ
  transportationType : String
  arrivalTimePeriod : String
  travelTime : ℤ
deriving DecidableEq, Repr

/-- The payload `route.ts` sends outbound for a given request body. -/
def outboundPayload (body : IsochroneRequest) : OutboundPayload :=
  { searchId := "isochrone_1"
    lat := body.lat
    lng := body.lng
    transportationType := body.mode
    arrivalTimePeriod := "weekday_morning"
    travelTime := travelTimeSeconds body.minutes }

/-- The two TravelTime credentials read from the environment. -/
structure EnvConfig where
  appId : Option String
  apiKey : Option String
deriving DecidableEq, Repr

/-- JS truthiness of a `string | undefined` value: defined and nonempty. -/
def truthyStr : Option String → Bool
  | none => false
  | some s => !s.isEmpty

/-- The value stored in and served from the cache: the parsed JSON body
(opaque payload type `J`), or — when the upstream content type does not
say `json` — the raw response text. -/
inductive JVal (J : Type) where
  | json (j : J)
  | raw (s : String)
deriving DecidableEq, Repr

/-- A cache entry: `{ expiresAt, geojson }` (`route.ts` line 11). -/
structure CacheEntry (J : Type) where
  expiresAt : ℤ
  geojson : JVal J
deriving DecidableEq, Repr

/-- The module-level `cache : Map<string, CacheEntry>`. -/
abbrev Cache (J : Type) := List (String × CacheEntry J)

/-- Outcome of the outbound `fetch` as the route observes it:
a network-level throw, or a response with its `ok` flag, status code,
content type, body text, and the result of `JSON.parse` on the text
(`none` when parsing would throw). -/
inductive FetchOutcome (J : Type) where
  | netError
  | response (ok : Bool) (status : ℤ) (contentType : String) (text : String)
      (parsed : Option J)
deriving DecidableEq, Repr

/-- The distinguishable responses the route can produce.  The 400
invalid-body branch guards dynamic JS types and is rendered unreachable by
this typed embedding. -/
inductive RouteResponse (J : Type) where
  | success (g : JVal J)
  | missingEnv
  | upstreamFailed (status : ℤ)
  | nonJsonBody (status : ℤ)
  | crashed
deriving DecidableEq, Repr

/-- Result of one `POST` evaluation: the HTTP response, the cache state
after the call, whether the outbound call was issued, and the payload sent
when it was. -/
structure PostOutcome (J : Type) where
  response : RouteResponse J
  cache : Cache J
  fetched : Bool
  payload : Option OutboundPayload
deriving DecidableEq, Repr

/-- JS `String.prototype.includes`: the pattern occurs as a contiguous
substring. -/
def includesStr (s pat : String) : Bool := decide (pat.data <:+: s.data)

/-- The portion of `POST` from the outbound `fetch` onward (`route.ts`
lines 66–110): a thrown fetch reaches the outer catch (500); a non-`ok`
response is a 502 with no cache write; an `ok` response whose content type
mentions `json` is `JSON.parse`d (parse failure: 502, no cache write);
otherwise the raw text is used; on success the value is cached with
expiry `now + 10 * 60 * 1000` and returned. -/
def fetchStep {J : Type} (cache : Cache J) (key : String) (now : ℤ)
    (body : IsochroneRequest) (fr : FetchOutcome J) : PostOutcome J :=
  match fr with
  | .netError => ⟨.crashed, cache, true, some (outboundPayload body)⟩
  | .response ok status ct text parsed =>
    if !ok then ⟨.upstreamFailed status, cache, true, some (outboundPayload body)⟩
    else
      match (if includesStr ct "json" then parsed.map JVal.json
             else some (JVal.raw text) : Option (JVal J)) with
      | none => ⟨.nonJsonBody status, cache, true, some (outboundPayload body)⟩
      | some g =>
        ⟨.success g, jsMapSet cache key ⟨now + 10 * 60 * 1000, g⟩, true,
          some (outboundPayload body)⟩

/-- The `POST` handler of `route.ts` as a state transformer: given the
environment, the cache, the current time `Date.now()`, a well-typed body
and the (externally determined) fetch outcome, produce the response, the
new cache, and whether the outbound call was made. -/
def POST {J : Type} (env : EnvConfig) (cache : Cache J) (now : ℤ)
    (body : IsochroneRequest) (fr : FetchOutcome J) : PostOutcome J :=
  if !truthyStr env.appId || !truthyStr env.apiKey then
    ⟨.missingEnv, cache, false, none⟩
  else
    match jsMapGet cache (cacheKey body) with
    | some hit =>
      if hit.expiresAt > now then ⟨.success hit.geojson, cache, false, none⟩
      else fetchStep cache (cacheKey body) now body fr
    | none => fetchStep cache (cacheKey body) now body fr

/-! ## Claim C10 -/

/-- A request at the Halifax default destination with the given duration
budget in minutes. -/
def reqMinutes (m : ℤ) : IsochroneRequest :=
  ⟨44.6511, -63.5827, "2026-10-13T08:30:00-04:00", m, "public_transport"⟩

/-! ## `src/app/page.tsx` — the containment engine

The geometry library (`@turf/turf`) is external to the repository; its four
operations used by the matching computation are modelled as an opaque
record `GeomOps` over an abstract geometry type `G`.  The two calls the
source wraps in `try { ... } catch { inside = false }` — `turf.centroid`
and `turf.booleanPointInPolygon` — return `Option`s, `none` standing for a
thrown geometry error. -/

/-- A value found in a GeoJSON `properties` bag: a JS string, or anything
of another runtime type (which `pickCommunityName` ignores). -/
inductive PropVal where
  | str (s : String)
  | other
deriving DecidableEq, Repr

/-- A `properties` object: key/value bindings. -/
abbrev Props := List (String × PropVal)

/-- JS property access `props[k]`. -/
def propLookup (p : Props) (k : String) : Option PropVal :=
  (p.find? (fun q => q.1 == k)).map Prod.snd

/-- The fixed attribute-priority list of `pickCommunityName`. -/
def communityNameKeys : List String :=
  ["GSA_NAME", "COMMUNITY", "COMMUNITY_NAME", "community_name",
   "NAME", "name", "label", "LABEL"]

/-- The key loop of `pickCommunityName`: the first key bound to a string
with nonempty trim wins; a string trimming to empty, or a non-string
value, falls through to the next key. -/
def pickFromKeys (p : Props) : List String → String
  | [] => "Unnamed area"
  | k :: ks =>
    match propLookup p k with
    | some (.str v) => if v.trim.isEmpty then pickFromKeys p ks else v.trim
    | _ => pickFromKeys p ks

/-- `pickCommunityName` from `page.tsx`: display-name resolution with the
default "Unnamed area" for a missing/non-object or exhausted bag. -/
def pickCommunityName : Option Props → String
  | none => "Unnamed area"
  | some p => pickFromKeys p communityNameKeys

/-- A `turf.bbox` result `[minLng, minLat, maxLng, maxLat]`. -/
structure BBox where
  minLng : ℚ
  minLat : ℚ
  maxLng : ℚ
  maxLat : ℚ
deriving DecidableEq, Repr

/-- Membership of a coordinate in a bounding box (used to state that the
prefilter never rejects boxes sharing a point). -/
def BBox.containsPt (bb : BBox) (p : ℚ × ℚ) : Prop :=
  bb.minLng ≤ p.1 ∧ p.1 ≤ bb.maxLng ∧ bb.minLat ≤ p.2 ∧ p.2 ≤ bb.maxLat

instance (bb : BBox) (p : ℚ × ℚ) : Decidable (bb.containsPt p) := by
  unfold BBox.containsPt
  infer_instance

/-- The bounding-box prefilter of `page.tsx` lines 169–170:
`!(b[2] < iso[0] || b[0] > iso[2] || b[3] < iso[1] || b[1] > iso[3])`. -/
def bboxIntersects (b iso : BBox) : Bool :=
  !(decide (b.maxLng < iso.minLng) || decide (b.minLng > iso.maxLng) ||
    decide (b.maxLat < iso.minLat) || decide (b.minLat > iso.maxLat))

/-- A GeoJSON feature: a geometry (possibly `null`) over the abstract
geometry type `G`, and a `properties` bag (possibly `null`). -/
structure Feature (G : Type) where
  geometry : Option G
  properties : Option Props
deriving DecidableEq, Repr

/-- A GeoJSON `FeatureCollection`; `features` may be absent (the source
reads it as `features?` / `features || []`). -/
structure FC (G : Type) where
  features : Option (List (Feature G))
deriving DecidableEq, Repr

/-- The four `@turf/turf` operations the matching computation calls.
`combine` and `bbox` are called outside any `try` (the source treats them
as total); `centroid` and `pip` (`booleanPointInPolygon`) sit inside
`try { ... } catch { inside = false }` and may fail. -/
structure GeomOps (G : Type) where
  combine : FC G → FC G
  bbox : Feature G → BBox
  centroid : Feature G → Option (ℚ × ℚ)
  pip : (ℚ × ℚ) → Feature G → Option Bool

/-- `CommunityHit` from `page.tsx`: `{ name, mode }`. -/
structure CommunityHit where
  name : String
  mode : String
deriving DecidableEq, Repr

/-- The loop body of the matching computation for one candidate feature
(`page.tsx` lines 165–187): a `null` geometry is skipped; a candidate
whose bounding box fails the prefilter is skipped; otherwise the centroid
is computed and tested against the combined isochrone feature, any thrown
geometry error counting as `inside = false`; a surviving candidate yields
a hit with its resolved name and the mode label with underscores replaced
by spaces. -/
def candidateHit {G : Type} (ops : GeomOps G) (isoFeature : Feature G)
    (isoBbox : BBox) (mode : String) (f : Feature G) : Option CommunityHit :=
  match f.geometry with
  | none => none
  | some _ =>
    if bboxIntersects (ops.bbox f) isoBbox then
      if (match ops.centroid f with
          | none => false
          | some c =>
            match ops.pip c isoFeature with
            | none => false
            | some b => b) then
        some ⟨pickCommunityName f.properties, mode.replace "_" " "⟩
      else none
    else none

/-- The `hits` array accumulated by the candidate loop. -/
def matchHits {G : Type} (ops : GeomOps G) (isoFeature : Feature G)
    (isoBbox : BBox) (mode : String) (feats : List (Feature G)) :
    List CommunityHit :=
  feats.filterMap (candidateHit ops isoFeature isoBbox mode)

/-- `Array.from(new Map(hits.map((h) => [h.name, h])).values())`:
de-duplication by name through a JS `Map`. -/
def dedupByName (hits : List CommunityHit) : List CommunityHit :=
  (jsMapOf (hits.map fun h => (h.name, h))).map Prod.snd

/-- The comparison underlying `(a, b) => a.name.localeCompare(b.name)`,
modelled as the lexicographic order on strings. -/
def hitLe (a b : CommunityHit) : Prop := a.name ≤ b.name

instance : DecidableRel hitLe :=
  fun a b => inferInstanceAs (Decidable (a.name ≤ b.name))

instance : IsTotal CommunityHit hitLe := ⟨fun a b => le_total a.name b.name⟩

instance : IsTrans CommunityHit hitLe :=
  ⟨fun _ _ _ hab hbc => le_trans hab hbc⟩

/-- The final `.sort(...)` of the matching computation, modelled as a
stable sort with respect to `hitLe`. -/
def sortHits (l : List CommunityHit) : List CommunityHit :=
  List.insertionSort hitLe l

/-- The matching computation of `page.tsx` lines 139–194 as a pure
function: guard on absent inputs, combine the isochrone fragments, take
the first combined feature (or return empty), prefilter + centroid-test
every candidate, then de-dupe by name and sort.  It is total by
construction: it always returns a (possibly empty) list. -/
def computeWithin {G : Type} (ops : GeomOps G) (isochrone : Option (FC G))
    (communities : Option (FC G)) (mode : String) : List CommunityHit :=
  match isochrone, communities with
  | some iso, some comms =>
    match ((ops.combine iso).features.bind List.head?) with
    | none => []
    | some isoFeature =>
      sortHits (dedupByName (matchHits ops isoFeature (ops.bbox isoFeature)
        mode (comms.features.getD [])))
  | _, _ => []

/-- Concrete operations over a trivial geometry type, for witnesses:
`combine` is the identity, every bounding box is the unit square scaled to
10, every centroid is `(5, 5)` and every point-in-polygon test succeeds
with `true`. -/
def wOps : GeomOps Unit :=
  { combine := fun fc => fc
    bbox := fun _ => ⟨0, 0, 10, 10⟩
    centroid := fun _ => some (5, 5)
    pip := fun _ _ => some true }

/-- Witness isochrone: one fragment. -/
def wIso : FC Unit := ⟨some [⟨some (), none⟩]⟩

/-- Witness candidates: two named features, listed out of order. -/
def wComms : FC Unit :=
  ⟨some [⟨some (), some [("NAME", .str "B")]⟩, ⟨some (), some [("NAME", .str "A")]⟩]⟩

/-- Concrete operations whose centroid computation always throws. -/
def wOpsFail : GeomOps Unit :=
  { combine := fun fc => fc
    bbox := fun _ => ⟨0, 0, 10, 10⟩
    centroid := fun _ => none
    pip := fun _ _ => some true }

/-! ## Theorems -/

theorem jsMapGet_set_self {α : Type} (m : List (String × α)) (k : String) (v : α) :
    jsMapGet (jsMapSet m k v) k = some v := by
  induction m with
  | nil => simp [jsMapSet, jsMapGet, List.find?]
  | cons p rest ih =>
    by_cases h : p.1 == k
    · simp [jsMapSet, h, jsMapGet, List.find?]
    · simp only [jsMapSet, h, if_false]
      simpa [jsMapGet, List.find?, h] using ih

theorem jsMapGet_set_ne {α : Type} (m : List (String × α)) (k k' : String) (v : α)
    (h : k' ≠ k) :
    jsMapGet (jsMapSet m k v) k' = jsMapGet m k' := by
  have hbeq : (k == k') = false := by
    simpa [beq_iff_eq] using fun e => h e.symm
  induction m with
  | nil => simp [jsMapSet, jsMapGet, List.find?, hbeq]
  | cons p rest ih =>
    by_cases hp : p.1 == k
    · have hp' : p.1 = k := by simpa [beq_iff_eq] using hp
      have : (p.1 == k') = false := by
        simpa [hp', beq_iff_eq] using fun e => h e.symm
      simp [jsMapSet, hp, jsMapGet, List.find?, hbeq, this]
    · simp only [jsMapSet, hp, if_false]
      by_cases hk' : p.1 == k'
      · simp [jsMapGet, List.find?, hk']
      · simpa [jsMapGet, List.find?, hk'] using ih

theorem jsMapGet_set_isSome {α : Type} (m : List (String × α)) (k k' : String) (v : α)
    (h : (jsMapGet m k').isSome = true) :
    (jsMapGet (jsMapSet m k v) k').isSome = true := by
  by_cases hk : k' = k
  · subst hk; simp [jsMapGet_set_self]
  · rw [jsMapGet_set_ne m k k' v hk]; exact h

/-! ## Evaluation lemmas for concrete fingerprints -/

theorem toFixed5_pos_44_6511 : toFixed5 (44.6511 : ℚ) = "44.65110" := by
  have h : ⌊|(44.6511 : ℚ)| * 100000 + 1 / 2⌋ = 4465110 := by
    rw [abs_of_pos (by norm_num : (0 : ℚ) < 44.6511), Int.floor_eq_iff]
    norm_num
  simp only [toFixed5]
  rw [h, if_neg (by norm_num : ¬((44.6511 : ℚ) < 0))]
  decide

theorem toFixed5_pos_44_651104 : toFixed5 (44.651104 : ℚ) = "44.65110" := by
  have h : ⌊|(44.651104 : ℚ)| * 100000 + 1 / 2⌋ = 4465110 := by
    rw [abs_of_pos (by norm_num : (0 : ℚ) < 44.651104), Int.floor_eq_iff]
    norm_num
  simp only [toFixed5]
  rw [h, if_neg (by norm_num : ¬((44.651104 : ℚ) < 0))]
  decide

theorem toFixed5_pos_44_651096 : toFixed5 (44.651096 : ℚ) = "44.65110" := by
  have h : ⌊|(44.651096 : ℚ)| * 100000 + 1 / 2⌋ = 4465110 := by
    rw [abs_of_pos (by norm_num : (0 : ℚ) < 44.651096), Int.floor_eq_iff]
    norm_num
  simp only [toFixed5]
  rw [h, if_neg (by norm_num : ¬((44.651096 : ℚ) < 0))]
  decide

theorem toFixed5_neg_63_5827 : toFixed5 (-63.5827 : ℚ) = "-63.58270" := by
  have h : ⌊|(-63.5827 : ℚ)| * 100000 + 1 / 2⌋ = 6358270 := by
    rw [abs_of_neg (by norm_num : (-63.5827 : ℚ) < 0), Int.floor_eq_iff]
    norm_num
  simp only [toFixed5]
  rw [h, if_pos (by norm_num : ((-63.5827 : ℚ) < 0))]
  decide

/-! ## Claims C5 and C6 -/

/-- C5: the duration budget in minutes is converted to seconds and clamped
before being sent outbound: the result always lies in [60, 10800]; an
input of 1000 minutes yields the ceiling 10800 and an input of 0 minutes
yields the floor 60. -/
theorem travelTime_clamped :
    (∀ m : ℤ, 60 ≤ travelTimeSeconds m ∧ travelTimeSeconds m ≤ 10800) ∧
    travelTimeSeconds 1000 = 10800 ∧ travelTimeSeconds 0 = 60 := by
  refine ⟨fun m => ⟨le_max_left _ _, max_le (by norm_num) (min_le_right _ _)⟩, ?_, ?_⟩
  · have h : ⌊(((1000 : ℤ) : ℚ) * 60 + 1 / 2)⌋ = (60000 : ℤ) := by
      rw [Int.floor_eq_iff]
      norm_num
    simp only [travelTimeSeconds, jsRound, h]
    decide
  · have h : ⌊(((0 : ℤ) : ℚ) * 60 + 1 / 2)⌋ = (0 : ℤ) := by
      rw [Int.floor_eq_iff]
      norm_num
    simp only [travelTimeSeconds, jsRound, h]
    decide

/-- C6: two request bodies whose destination coordinates agree once
rounded to the 5-decimal fingerprint precision, and that agree on arrival
time, duration in minutes, and travel mode, compute the same cache key and
therefore address the same cache entry. -/
theorem fingerprint_subprecision (r1 r2 : IsochroneRequest)
    (hlat : toFixed5 r1.lat = toFixed5 r2.lat)
    (hlng : toFixed5 r1.lng = toFixed5 r2.lng)
    (ht : r1.arriveByISO = r2.arriveByISO)
    (hm : r1.minutes = r2.minutes)
    (hmo : r1.mode = r2.mode) :
    cacheKey r1 = cacheKey r2 := by
  simp only [cacheKey, hlat, hlng, ht, hm, hmo]

/-- Witness for C6: two destinations differing only in the sixth decimal
(44.651104 vs 44.651096) fingerprint identically. -/
theorem fingerprint_subprecision_witness :
    cacheKey ⟨44.651104, -63.5827, "2026-10-13T08:30:00-04:00", 30, "public_transport"⟩ =
      cacheKey ⟨44.651096, -63.5827, "2026-10-13T08:30:00-04:00", 30, "public_transport"⟩ :=
  fingerprint_subprecision _ _
    (by
      show toFixed5 (44.651104 : ℚ) = toFixed5 (44.651096 : ℚ)
      rw [toFixed5_pos_44_651104, toFixed5_pos_44_651096])
    rfl rfl rfl rfl

/-! ## Structural lemmas about the route's control flow -/

theorem fetchStep_fetched {J : Type} (cache : Cache J) (key : String) (now : ℤ)
    (body : IsochroneRequest) (fr : FetchOutcome J) :
    (fetchStep cache key now body fr).fetched = true := by
  cases fr with
  | netError => rfl
  | response ok status ct text parsed =>
    cases ok with
    | false => rfl
    | true =>
      simp only [fetchStep]
      split
      · rfl
      · split <;> rfl

theorem fetchStep_cases {J : Type} (cache : Cache J) (key : String) (now : ℤ)
    (body : IsochroneRequest) (fr : FetchOutcome J) :
    (fetchStep cache key now body fr).cache = cache ∨
      ∃ g, (fetchStep cache key now body fr).response = .success g ∧
        (fetchStep cache key now body fr).fetched = true ∧
        (fetchStep cache key now body fr).cache =
          jsMapSet cache key ⟨now + 10 * 60 * 1000, g⟩ := by
  cases fr with
  | netError => exact Or.inl rfl
  | response ok status ct text parsed =>
    cases ok with
    | false => exact Or.inl rfl
    | true =>
      simp only [fetchStep]
      split
      · exact Or.inl rfl
      · split
        · exact Or.inl rfl
        · exact Or.inr ⟨_, rfl, rfl, rfl⟩

/-- With valid credentials and no fresh cache hit, `POST` proceeds to the
fetch step. -/
theorem POST_fetch_path {J : Type} (env : EnvConfig) (cache : Cache J) (now : ℤ)
    (body : IsochroneRequest) (fr : FetchOutcome J)
    (henvA : truthyStr env.appId = true) (henvK : truthyStr env.apiKey = true)
    (hmiss : ∀ e : CacheEntry J,
      jsMapGet cache (cacheKey body) = some e → e.expiresAt ≤ now) :
    POST env cache now body fr = fetchStep cache (cacheKey body) now body fr := by
  unfold POST
  rw [if_neg (by simp [henvA, henvK])]
  cases hg : jsMapGet cache (cacheKey body) with
  | none => rfl
  | some e =>
    simp only
    rw [if_neg (not_lt.mpr (hmiss e hg))]

/-! ## Claims C7, C8, C9 -/

/-- C7: with credentials present, a cache entry whose expiry is strictly in
the future is served as-is with no outbound call and no cache change; an
entry at or past its expiry is treated as a miss and the outbound call is
issued; and an entry written after a successful fetch carries expiry
`now + 10 * 60 * 1000` milliseconds (a 10-minute TTL). -/
theorem cache_ttl {J : Type} (env : EnvConfig) (cache : Cache J) (now : ℤ)
    (body : IsochroneRequest) (fr : FetchOutcome J)
    (henvA : truthyStr env.appId = true) (henvK : truthyStr env.apiKey = true) :
    (∀ e : CacheEntry J, jsMapGet cache (cacheKey body) = some e →
      now < e.expiresAt →
      POST env cache now body fr = ⟨.success e.geojson, cache, false, none⟩) ∧
    (∀ e : CacheEntry J, jsMapGet cache (cacheKey body) = some e →
      e.expiresAt ≤ now → (POST env cache now body fr).fetched = true) ∧
    (∀ (status : ℤ) (ct text : String) (j : J),
      fr = .response true status ct text (some j) →
      includesStr ct "json" = true →
      (∀ e : CacheEntry J, jsMapGet cache (cacheKey body) = some e →
        e.expiresAt ≤ now) →
      jsMapGet (POST env cache now body fr).cache (cacheKey body) =
        some ⟨now + 10 * 60 * 1000, .json j⟩) := by
  refine ⟨?_, ?_, ?_⟩
  · intro e he hlt
    unfold POST
    rw [if_neg (by simp [henvA, henvK]), he]
    simp only
    rw [if_pos hlt]
  · intro e he hle
    rw [POST_fetch_path env cache now body fr henvA henvK
      (fun e' he' => by rw [he] at he'; cases he'; exact hle)]
    exact fetchStep_fetched _ _ _ _ _
  · intro status ct text j hfr hct hmiss
    rw [POST_fetch_path env cache now body fr henvA henvK hmiss, hfr]
    simp only [fetchStep, hct, if_true, Option.map_some', Bool.not_true,
      Bool.false_eq_true, if_false]
    exact jsMapGet_set_self _ _ _

/-- Witness for C7: a fresh entry (expiry 1000, now 0) is served from the
cache without touching the network or the cache state. -/
theorem cache_ttl_witness :
    POST (J := Unit) ⟨some "id", some "key"⟩
        [(cacheKey ⟨44.6511, -63.5827, "2026-10-13T08:30:00-04:00", 30, "public_transport"⟩,
          ⟨1000, .json ()⟩)]
        0 ⟨44.6511, -63.5827, "2026-10-13T08:30:00-04:00", 30, "public_transport"⟩ .netError =
      ⟨.success (.json ()),
        [(cacheKey ⟨44.6511, -63.5827, "2026-10-13T08:30:00-04:00", 30, "public_transport"⟩,
          ⟨1000, .json ()⟩)], false, none⟩ :=
  (cache_ttl ⟨some "id", some "key"⟩ _ _ _ _ rfl rfl).1 ⟨1000, .json ()⟩
    (by simp [jsMapGet, List.find?]) (by norm_num)

/-- C8: a failed fetch never writes to the cache: with credentials present
and no fresh cache hit, a non-`ok` upstream response yields the 502 error
outcome with the cache exactly as before, and an `ok` response whose JSON
body fails to parse yields the other 502 error outcome, again with the
cache unchanged. -/
theorem failed_fetch_preserves_cache {J : Type} (env : EnvConfig) (cache : Cache J)
    (now : ℤ) (body : IsochroneRequest)
    (henvA : truthyStr env.appId = true) (henvK : truthyStr env.apiKey = true)
    (hmiss : ∀ e : CacheEntry J,
      jsMapGet cache (cacheKey body) = some e → e.expiresAt ≤ now) :
    (∀ (status : ℤ) (ct text : String) (parsed : Option J),
      POST env cache now body (.response false status ct text parsed) =
        ⟨.upstreamFailed status, cache, true, some (outboundPayload body)⟩) ∧
    (∀ (status : ℤ) (ct text : String), includesStr ct "json" = true →
      POST env cache now body (.response true status ct text none) =
        ⟨.nonJsonBody status, cache, true, some (outboundPayload body)⟩) := by
  constructor
  · intro status ct text parsed
    rw [POST_fetch_path env cache now body _ henvA henvK hmiss]
    rfl
  · intro status ct text hct
    rw [POST_fetch_path env cache now body _ henvA henvK hmiss]
    simp [fetchStep, hct]

/-- Witness for C8: a 500 upstream response against an empty cache leaves
the cache empty and reports the upstream failure. -/
theorem failed_fetch_preserves_cache_witness :
    POST (J := Unit) ⟨some "id", some "key"⟩ [] 5
        ⟨44.6511, -63.5827, "2026-10-13T08:30:00-04:00", 30, "public_transport"⟩
        (.response false 500 "text/html" "oops" none) =
      ⟨.upstreamFailed 500, [], true,
        some (outboundPayload
          ⟨44.6511, -63.5827, "2026-10-13T08:30:00-04:00", 30, "public_transport"⟩)⟩ :=
  (failed_fetch_preserves_cache ⟨some "id", some "key"⟩ _ _ _ rfl rfl
    (fun e he => by simp [jsMapGet, List.find?] at he)).1 500 "text/html" "oops" none

/-- C9: the only cache mutation is the post-success write: every `POST`
evaluation either leaves the cache identical or, on a successful fetch,
performs exactly the one `jsMapSet` write under the request's key; keys
other than the request's key always map to their previous entry (so a read
hit never refreshes an expiry), and the key set never shrinks. -/
theorem cache_mutation_only_on_success {J : Type} (env : EnvConfig)
    (cache : Cache J) (now : ℤ) (body : IsochroneRequest) (fr : FetchOutcome J) :
    ((POST env cache now body fr).cache = cache ∨
      ∃ g, (POST env cache now body fr).response = .success g ∧
        (POST env cache now body fr).fetched = true ∧
        (POST env cache now body fr).cache =
          jsMapSet cache (cacheKey body) ⟨now + 10 * 60 * 1000, g⟩) ∧
    (∀ k, k ≠ cacheKey body →
      jsMapGet (POST env cache now body fr).cache k = jsMapGet cache k) ∧
    (∀ k, (jsMapGet cache k).isSome = true →
      (jsMapGet (POST env cache now body fr).cache k).isSome = true) := by
  have hd : (POST env cache now body fr).cache = cache ∨
      ∃ g, (POST env cache now body fr).response = .success g ∧
        (POST env cache now body fr).fetched = true ∧
        (POST env cache now body fr).cache =
          jsMapSet cache (cacheKey body) ⟨now + 10 * 60 * 1000, g⟩ := by
    unfold POST
    split
    · exact Or.inl rfl
    · cases hg : jsMapGet cache (cacheKey body) with
      | none => exact fetchStep_cases cache (cacheKey body) now body fr
      | some e =>
        simp only
        split
        · exact Or.inl rfl
        · exact fetchStep_cases cache (cacheKey body) now body fr
  refine ⟨hd, ?_, ?_⟩
  · intro k hk
    rcases hd with h | ⟨g, _, _, h⟩
    · rw [h]
    · rw [h, jsMapGet_set_ne cache (cacheKey body) k _ hk]
  · intro k hsome
    rcases hd with h | ⟨g, _, _, h⟩
    · rw [h]; exact hsome
    · rw [h]; exact jsMapGet_set_isSome cache (cacheKey body) k _ hsome

theorem cacheKey_req200 :
    cacheKey (reqMinutes 200) =
      "44.65110,-63.58270|2026-10-13T08:30:00-04:00|200|public_transport" := by
  simp only [cacheKey, reqMinutes]
  rw [toFixed5_pos_44_6511, toFixed5_neg_63_5827]
  decide

theorem cacheKey_req1000 :
    cacheKey (reqMinutes 1000) =
      "44.65110,-63.58270|2026-10-13T08:30:00-04:00|1000|public_transport" := by
  simp only [cacheKey, reqMinutes]
  rw [toFixed5_pos_44_6511, toFixed5_neg_63_5827]
  decide

/-- C10: the cache key is computed from the raw, un-clamped minutes value:
requests of 200 and 1000 minutes — both clamping to 10800 outbound
seconds, hence identical outbound payloads — produce different cache keys,
and each triggers its own outbound call even right after the other's
successful fetch has been cached. -/
theorem cacheKey_uses_raw_minutes :
    cacheKey (reqMinutes 200) ≠ cacheKey (reqMinutes 1000) ∧
    travelTimeSeconds 200 = 10800 ∧ travelTimeSeconds 1000 = 10800 ∧
    outboundPayload (reqMinutes 200) = outboundPayload (reqMinutes 1000) ∧
    (POST (J := Unit) ⟨some "id", some "key"⟩ [] 0 (reqMinutes 200)
      (.response true 200 "application/geo+json" "fc" (some ()))).fetched = true ∧
    (POST (J := Unit) ⟨some "id", some "key"⟩
      (POST (J := Unit) ⟨some "id", some "key"⟩ [] 0 (reqMinutes 200)
        (.response true 200 "application/geo+json" "fc" (some ()))).cache
      0 (reqMinutes 1000)
      (.response true 200 "application/geo+json" "fc" (some ()))).fetched = true := by
  have h200 : travelTimeSeconds 200 = 10800 := by
    have h : ⌊(((200 : ℤ) : ℚ) * 60 + 1 / 2)⌋ = (12000 : ℤ) := by
      rw [Int.floor_eq_iff]
      norm_num
    simp only [travelTimeSeconds, jsRound, h]
    decide
  have h1000 : travelTimeSeconds 1000 = 10800 := by
    have h : ⌊(((1000 : ℤ) : ℚ) * 60 + 1 / 2)⌋ = (60000 : ℤ) := by
      rw [Int.floor_eq_iff]
      norm_num
    simp only [travelTimeSeconds, jsRound, h]
    decide
  have hfirst : POST (J := Unit) ⟨some "id", some "key"⟩ [] 0 (reqMinutes 200)
      (.response true 200 "application/geo+json" "fc" (some ())) =
      ⟨.success (.json ()),
        [(cacheKey (reqMinutes 200), ⟨0 + 10 * 60 * 1000, .json ()⟩)], true,
        some (outboundPayload (reqMinutes 200))⟩ := rfl
  refine ⟨?_, h200, h1000, ?_, ?_, ?_⟩
  · rw [cacheKey_req200, cacheKey_req1000]
    decide
  · simp only [outboundPayload, reqMinutes, h200, h1000]
  · rw [hfirst]
  · rw [hfirst]
    rw [POST_fetch_path (⟨some "id", some "key"⟩ : EnvConfig) _ _ _ _ rfl rfl ?_]
    · exact fetchStep_fetched _ _ _ _ _
    · intro e he
      rw [cacheKey_req1000] at he
      rw [show jsMapGet [(cacheKey (reqMinutes 200), (⟨0 + 10 * 60 * 1000, .json ()⟩ : CacheEntry Unit))]
          "44.65110,-63.58270|2026-10-13T08:30:00-04:00|1000|public_transport" = none from by
        rw [cacheKey_req200]
        decide] at he
      cases he

/-! ## Lemmas about `Map`-based de-duplication -/

theorem jsMapSet_keys {α : Type} (m : List (String × α)) (k : String) (v : α) :
    jsMapKeys (jsMapSet m k v) =
      if k ∈ jsMapKeys m then jsMapKeys m else jsMapKeys m ++ [k] := by
  induction m with
  | nil => simp [jsMapSet, jsMapKeys]
  | cons p rest ih =>
    by_cases hp : p.1 == k
    · have hp' : p.1 = k := by simpa [beq_iff_eq] using hp
      simp [jsMapSet, hp, jsMapKeys, hp']
    · have hp' : p.1 ≠ k := by simpa [beq_iff_eq] using hp
      have hne : ¬ k = p.1 := fun e => hp' e.symm
      simp only [jsMapSet, hp, if_false]
      by_cases hk : k ∈ jsMapKeys rest
      · simp_all [jsMapKeys]
      · simp_all [jsMapKeys]

theorem jsMapSet_keys_nodup {α : Type} (m : List (String × α)) (k : String) (v : α)
    (h : (jsMapKeys m).Nodup) : (jsMapKeys (jsMapSet m k v)).Nodup := by
  rw [jsMapSet_keys]
  by_cases hk : k ∈ jsMapKeys m
  · simpa [hk] using h
  · rw [if_neg hk]
    refine List.Nodup.append h (List.nodup_singleton k) ?_
    intro a ha hb
    simp only [List.mem_singleton] at hb
    exact hk (hb ▸ ha)

theorem jsMapSet_keys_mem {α : Type} (m : List (String × α)) (k k' : String) (v : α) :
    k' ∈ jsMapKeys (jsMapSet m k v) ↔ k' ∈ jsMapKeys m ∨ k' = k := by
  rw [jsMapSet_keys]
  by_cases hk : k ∈ jsMapKeys m
  · simp only [hk, if_true]
    constructor
    · exact Or.inl
    · rintro (h | rfl)
      · exact h
      · exact hk
  · simp [hk]

theorem jsMapSet_mem {α : Type} (m : List (String × α)) (k : String) (v : α)
    (q : String × α) : q ∈ jsMapSet m k v → q ∈ m ∨ q = (k, v) := by
  induction m with
  | nil => intro h; simpa [jsMapSet] using h
  | cons p rest ih =>
    intro h
    simp only [jsMapSet] at h
    split at h
    · rcases List.mem_cons.mp h with h1 | h1
      · exact Or.inr h1
      · exact Or.inl (List.mem_cons_of_mem p h1)
    · rcases List.mem_cons.mp h with h1 | h1
      · exact Or.inl (h1 ▸ List.mem_cons_self p rest)
      · rcases ih h1 with h2 | h2
        · exact Or.inl (List.mem_cons_of_mem p h2)
        · exact Or.inr h2

theorem jsMapOf_go_keys_nodup {α : Type} (ps : List (String × α)) :
    ∀ m : List (String × α), (jsMapKeys m).Nodup →
      (jsMapKeys (ps.foldl (fun acc q => jsMapSet acc q.1 q.2) m)).Nodup := by
  induction ps with
  | nil => intro m h; simpa using h
  | cons a ps ih =>
    intro m h
    exact ih (jsMapSet m a.1 a.2) (jsMapSet_keys_nodup m a.1 a.2 h)

theorem jsMapOf_keys_nodup {α : Type} (ps : List (String × α)) :
    (jsMapKeys (jsMapOf ps)).Nodup :=
  jsMapOf_go_keys_nodup ps [] (by simp [jsMapKeys])

theorem jsMapOf_go_mem {α : Type} (ps : List (String × α)) (q : String × α) :
    ∀ m : List (String × α),
      q ∈ ps.foldl (fun acc p => jsMapSet acc p.1 p.2) m → q ∈ m ∨ q ∈ ps := by
  induction ps with
  | nil => intro m h; exact Or.inl h
  | cons a ps ih =>
    intro m h
    rcases ih (jsMapSet m a.1 a.2) h with h' | h'
    · rcases jsMapSet_mem m a.1 a.2 q h' with h'' | h''
      · exact Or.inl h''
      · exact Or.inr (by simp [h''])
    · exact Or.inr (List.mem_cons_of_mem a h')

theorem jsMapOf_mem {α : Type} (ps : List (String × α)) (q : String × α)
    (h : q ∈ jsMapOf ps) : q ∈ ps := by
  rcases jsMapOf_go_mem ps q [] h with h' | h'
  · cases h'
  · exact h'

theorem jsMapOf_go_keys_mem {α : Type} (ps : List (String × α)) (k : String) :
    ∀ m : List (String × α),
      k ∈ jsMapKeys (ps.foldl (fun acc p => jsMapSet acc p.1 p.2) m) ↔
        k ∈ jsMapKeys m ∨ k ∈ ps.map Prod.fst := by
  induction ps with
  | nil => intro m; simp
  | cons a ps ih =>
    intro m
    rw [List.foldl_cons, ih (jsMapSet m a.1 a.2), jsMapSet_keys_mem]
    simp only [List.map_cons, List.mem_cons]
    tauto

theorem jsMapOf_keys_mem {α : Type} (ps : List (String × α)) (k : String) :
    k ∈ jsMapKeys (jsMapOf ps) ↔ k ∈ ps.map Prod.fst := by
  rw [jsMapOf, jsMapOf_go_keys_mem]
  simp [jsMapKeys]

theorem dedupByName_subset (hits : List CommunityHit) (e : CommunityHit)
    (he : e ∈ dedupByName hits) : e ∈ hits := by
  rw [dedupByName, List.mem_map] at he
  obtain ⟨q, hq, rfl⟩ := he
  have := jsMapOf_mem _ q hq
  rw [List.mem_map] at this
  obtain ⟨h, hh, rfl⟩ := this
  exact hh

theorem dedupByName_names (hits : List CommunityHit) :
    (dedupByName hits).map CommunityHit.name =
      jsMapKeys (jsMapOf (hits.map fun h => (h.name, h))) := by
  rw [dedupByName, List.map_map, jsMapKeys]
  refine List.map_congr_left ?_
  intro q hq
  have := jsMapOf_mem _ q hq
  rw [List.mem_map] at this
  obtain ⟨h, _, rfl⟩ := this
  rfl

theorem dedupByName_names_nodup (hits : List CommunityHit) :
    ((dedupByName hits).map CommunityHit.name).Nodup := by
  rw [dedupByName_names]
  exact jsMapOf_keys_nodup _

theorem dedupByName_names_mem (hits : List CommunityHit) (n : String) :
    n ∈ (dedupByName hits).map CommunityHit.name ↔
      n ∈ hits.map CommunityHit.name := by
  rw [dedupByName_names, jsMapOf_keys_mem, List.map_map]
  rfl

theorem dedupByName_first_seen (hits : List CommunityHit) (ms : String)
    (hmode : ∀ h ∈ hits, h.mode = ms) (e : CommunityHit)
    (he : e ∈ dedupByName hits) :
    hits.find? (fun h => h.name == e.name) = some e := by
  have heHits : e ∈ hits := dedupByName_subset hits e he
  have hsome : (hits.find? (fun h => h.name == e.name)).isSome = true := by
    rw [List.find?_isSome]
    exact ⟨e, heHits, by simp⟩
  obtain ⟨h0, hh0⟩ := Option.isSome_iff_exists.mp hsome
  have hmem : h0 ∈ hits := List.mem_of_find?_eq_some hh0
  have hname : h0.name = e.name := by
    have := List.find?_some hh0
    simpa using this
  have : h0 = e := by
    cases h0 with
    | mk n0 m0 =>
      cases e with
      | mk n1 m1 =>
        have hm0 : m0 = ms := hmode _ hmem
        have hm1 : m1 = ms := hmode _ heHits
        simp only at hname
        simp [hname, hm0, hm1]
  rw [hh0, this]

theorem matchHits_mode {G : Type} (ops : GeomOps G) (isoFeature : Feature G)
    (isoBbox : BBox) (mode : String) (feats : List (Feature G)) :
    ∀ h ∈ matchHits ops isoFeature isoBbox mode feats,
      h.mode = mode.replace "_" " " := by
  intro h hm
  rw [matchHits, List.mem_filterMap] at hm
  obtain ⟨f, _, hch⟩ := hm
  unfold candidateHit at hch
  split at hch
  · cases hch
  · split at hch
    · split at hch
      · cases hch
        rfl
      · cases hch
    · cases hch

/-! ## Claims C1–C4 -/

/-- C1: for any geometry operations, isochrone and candidate collection,
whenever the combined isochrone yields a first feature, the computed
result list is sorted with respect to the name comparison, carries
pairwise-distinct names, contains a name iff some accumulated hit resolved
to that name, and each of its entries equals the first accumulated hit
with that name (first-seen attributes win). -/
theorem match_result_dedup_sorted {G : Type} (ops : GeomOps G) (iso comms : FC G)
    (mode : String) (isoFeature : Feature G)
    (hcomb : ((ops.combine iso).features.bind List.head?) = some isoFeature) :
    List.Sorted hitLe (computeWithin ops (some iso) (some comms) mode) ∧
    ((computeWithin ops (some iso) (some comms) mode).map CommunityHit.name).Nodup ∧
    (∀ n, n ∈ (computeWithin ops (some iso) (some comms) mode).map CommunityHit.name ↔
      n ∈ (matchHits ops isoFeature (ops.bbox isoFeature) mode
        (comms.features.getD [])).map CommunityHit.name) ∧
    (∀ e ∈ computeWithin ops (some iso) (some comms) mode,
      (matchHits ops isoFeature (ops.bbox isoFeature) mode
        (comms.features.getD [])).find? (fun h => h.name == e.name) = some e) := by
  have hstep : computeWithin ops (some iso) (some comms) mode =
      (match ((ops.combine iso).features.bind List.head?) with
        | none => ([] : List CommunityHit)
        | some isoF =>
          sortHits (dedupByName (matchHits ops isoF (ops.bbox isoF)
            mode (comms.features.getD [])))) := rfl
  have hcw : computeWithin ops (some iso) (some comms) mode =
      sortHits (dedupByName (matchHits ops isoFeature (ops.bbox isoFeature)
        mode (comms.features.getD []))) := by
    rw [hstep, hcomb]
  generalize hhits : matchHits ops isoFeature (ops.bbox isoFeature) mode
    (comms.features.getD []) = hits at hcw ⊢
  have hperm : List.Perm (sortHits (dedupByName hits)) (dedupByName hits) :=
    List.perm_insertionSort hitLe (dedupByName hits)
  refine ⟨?_, ?_, ?_, ?_⟩
  · rw [hcw]
    exact List.sorted_insertionSort hitLe (dedupByName hits)
  · rw [hcw]
    exact ((hperm.map CommunityHit.name).nodup_iff).mpr
      (dedupByName_names_nodup hits)
  · intro n
    rw [hcw]
    rw [(hperm.map CommunityHit.name).mem_iff]
    exact dedupByName_names_mem hits n
  · intro e he
    rw [hcw] at he
    exact dedupByName_first_seen hits (mode.replace "_" " ")
      (hhits ▸ matchHits_mode ops isoFeature (ops.bbox isoFeature) mode
        (comms.features.getD [])) e (hperm.mem_iff.mp he)

/-- Witness for C1 at a concrete input. -/
theorem match_result_dedup_sorted_witness :
    List.Sorted hitLe (computeWithin wOps (some wIso) (some wComms) "public_transport") :=
  (match_result_dedup_sorted wOps wIso wComms "public_transport" ⟨some (), none⟩ rfl).1

/-- C2: the matching computation returns the empty list when the isochrone
is absent, when the candidate collection is absent, when the isochrone has
zero fragments, or when the candidate collection is empty — and, being a
total function, raises nothing.  The hypothesis `hc` is the spec §4.1
contract of the external `turf.combine` collaborator: combining an empty
collection produces no feature. -/
theorem match_empty_inputs {G : Type} (ops : GeomOps G) (mode : String)
    (hc : ∀ fc : FC G, fc.features.getD [] = [] →
      ((ops.combine fc).features.bind List.head?) = none) :
    (∀ comms, computeWithin ops none comms mode = []) ∧
    (∀ iso, computeWithin ops iso none mode = []) ∧
    (∀ fc comms, fc.features.getD [] = [] →
      computeWithin ops (some fc) comms mode = []) ∧
    (∀ iso fc, fc.features.getD [] = [] →
      computeWithin ops iso (some fc) mode = []) := by
  refine ⟨?_, ?_, ?_, ?_⟩
  · intro comms
    cases comms <;> rfl
  · intro iso
    cases iso <;> rfl
  · intro fc comms h
    cases comms with
    | none => rfl
    | some c =>
      have hstep : computeWithin ops (some fc) (some c) mode =
          (match ((ops.combine fc).features.bind List.head?) with
            | none => ([] : List CommunityHit)
            | some isoF =>
              sortHits (dedupByName (matchHits ops isoF (ops.bbox isoF)
                mode (c.features.getD [])))) := rfl
      rw [hstep, hc fc h]
  · intro iso fc h
    cases iso with
    | none => rfl
    | some i =>
      have hstep : computeWithin ops (some i) (some fc) mode =
          (match ((ops.combine i).features.bind List.head?) with
            | none => ([] : List CommunityHit)
            | some isoF =>
              sortHits (dedupByName (matchHits ops isoF (ops.bbox isoF)
                mode (fc.features.getD [])))) := rfl
      rcases hcomb : ((ops.combine i).features.bind List.head?) with _ | isoF
      · rw [hstep, hcomb]
      · rw [hstep, hcomb, h]
        rfl

/-- `wOps.combine` is the identity, which satisfies the empty-in/empty-out
contract of the external combine collaborator. -/
theorem wOps_combine_empty :
    ∀ fc : FC Unit, fc.features.getD [] = [] →
      ((wOps.combine fc).features.bind List.head?) = none := by
  intro fc h
  cases hfc : fc.features with
  | none => simp [wOps, hfc]
  | some l =>
    rw [hfc] at h
    simp only [Option.getD_some] at h
    simp [wOps, hfc, h]

/-- Witness for C2: a zero-fragment isochrone against concrete candidates
yields the empty result. -/
theorem match_empty_inputs_witness :
    computeWithin wOps (some (⟨some []⟩ : FC Unit)) (some wComms) "public_transport" = [] :=
  (match_empty_inputs wOps "public_transport" wOps_combine_empty).2.2.1
    ⟨some []⟩ (some wComms) rfl

/-- C3: a candidate whose bounding box fails the prefilter is excluded no
matter what the centroid and point-in-polygon operations would return
(they are never consulted), and the prefilter itself never rejects two
boxes that share a point — including boxes that merely touch on an
edge. -/
theorem bbox_prefilter {G : Type} (ops : GeomOps G) (isoFeature : Feature G)
    (isoBbox : BBox) (mode : String) (f : Feature G)
    (h : bboxIntersects (ops.bbox f) isoBbox = false) :
    (∀ (cen : Feature G → Option (ℚ × ℚ))
        (pp : (ℚ × ℚ) → Feature G → Option Bool),
      candidateHit ⟨ops.combine, ops.bbox, cen, pp⟩ isoFeature isoBbox mode f =
        none) ∧
    (∀ (a b : BBox) (p : ℚ × ℚ), a.containsPt p → b.containsPt p →
      bboxIntersects a b = true) := by
  constructor
  · intro cen pp
    unfold candidateHit
    cases hg : f.geometry with
    | none => rfl
    | some g => simp [h]
  · rintro a b p ⟨ha1, ha2, ha3, ha4⟩ ⟨hb1, hb2, hb3, hb4⟩
    have h1 : ¬ a.maxLng < b.minLng := not_lt.mpr (le_trans hb1 ha2)
    have h2 : ¬ a.minLng > b.maxLng := not_lt.mpr (le_trans ha1 hb2)
    have h3 : ¬ a.maxLat < b.minLat := not_lt.mpr (le_trans hb3 ha4)
    have h4 : ¬ a.minLat > b.maxLat := not_lt.mpr (le_trans ha3 hb4)
    simp [bboxIntersects, h1, h2, h3, h4]

/-- Witness for C3: a candidate box strictly left of the isochrone box is
skipped, and two boxes touching along the edge `lng = 1` are accepted by
the prefilter. -/
theorem bbox_prefilter_witness :
    candidateHit ⟨wOps.combine, wOps.bbox, wOps.centroid, wOps.pip⟩
        (⟨some (), none⟩ : Feature Unit) ⟨20, 0, 30, 1⟩ "m" ⟨some (), none⟩ = none ∧
    bboxIntersects ⟨0, 0, 1, 1⟩ ⟨1, 0, 2, 1⟩ = true := by
  have h := bbox_prefilter wOps (⟨some (), none⟩ : Feature Unit) ⟨20, 0, 30, 1⟩ "m"
    ⟨some (), none⟩ (by norm_num [wOps, bboxIntersects])
  exact ⟨h.1 wOps.centroid wOps.pip,
    h.2 ⟨0, 0, 1, 1⟩ ⟨1, 0, 2, 1⟩ (1, 1/2)
      (by norm_num [BBox.containsPt]) (by norm_num [BBox.containsPt])⟩

/-- C4: a geometry error thrown while computing a candidate's centroid or
while testing centroid containment makes exactly that candidate
not-matched: its loop step yields no hit, and the hits accumulated over a
candidate list are the same as if the failing candidate were absent — the
computation continues over the remaining candidates.  (The embedded
computation is a total function, so the matching never raises.) -/
theorem geometry_error_failsafe {G : Type} (ops : GeomOps G) (isoFeature : Feature G)
    (isoBbox : BBox) (mode : String) (f : Feature G)
    (hfail : ops.centroid f = none ∨
      ∃ c, ops.centroid f = some c ∧ ops.pip c isoFeature = none) :
    candidateHit ops isoFeature isoBbox mode f = none ∧
    (∀ pre post : List (Feature G),
      matchHits ops isoFeature isoBbox mode (pre ++ f :: post) =
        matchHits ops isoFeature isoBbox mode (pre ++ post)) := by
  have h1 : candidateHit ops isoFeature isoBbox mode f = none := by
    unfold candidateHit
    cases hg : f.geometry with
    | none => rfl
    | some g =>
      rcases hfail with hc | ⟨c, hc, hp⟩
      · simp [hc]
      · simp [hc, hp]
  refine ⟨h1, fun pre post => ?_⟩
  simp [matchHits, List.filterMap_append, List.filterMap_cons, h1]

/-- Witness for C4: a candidate whose centroid computation throws is
excluded. -/
theorem geometry_error_failsafe_witness :
    candidateHit wOpsFail (⟨some (), none⟩ : Feature Unit) ⟨0, 0, 10, 10⟩ "m"
      ⟨some (), none⟩ = none :=
  (geometry_error_failsafe wOpsFail ⟨some (), none⟩ ⟨0, 0, 10, 10⟩ "m"
    ⟨some (), none⟩ (Or.inl rfl)).1

/-- Witness for C9: after a crashed fetch against the empty cache, an
unrelated key still maps to what it mapped to before. -/
theorem cache_mutation_only_on_success_witness :
    jsMapGet (POST (J := Unit) ⟨some "id", some "key"⟩ [] 0 (reqMinutes 200)
        .netError).cache "other" = jsMapGet ([] : Cache Unit) "other" :=
  (cache_mutation_only_on_success ⟨some "id", some "key"⟩ [] 0 (reqMinutes 200)
    .netError).2.1 "other" (by rw [cacheKey_req200]; decide)
